import Mathlib

/-!
Shallow embedding of the core of `linux-packet-visualizer`
(`internal/contract`: `skbuff.go`, `function.go`, the function graph and
the `Simulate` traversal, plus the ingress buffer constructor).

Go integers are modelled as `Int`, Go slices as `List`, Go `nil`-able
pointers as `Option`, and Go maps over string keys as lookup functions on
the underlying association lists (insertion order preserved, later
insertions overwriting earlier ones, exactly the observable behaviour of
the Go map construction in `NewFunctionGraph`).  Methods that mutate the
receiver and return a `bool` are modelled as functions returning
`Bool × SKBuff`.
-/

set_option maxRecDepth 8192

/-- `ProtocolHeader` from `skbuff.go`: one labelled framing segment. -/
structure ProtocolHeader where
  Protocol : String
  Offset : Int
  Size : Int
  deriving DecidableEq, Repr

/-- `SKBuff` from `skbuff.go`: the four offsets and the segment list. -/
structure SKBuff where
  Head : Int
  Data : Int
  Tail : Int
  End : Int
  Layers : List ProtocolHeader
  deriving DecidableEq, Repr

/-- `(*SKBuff).Push` from `skbuff.go`: prepend header space, moving `Data`
backward; on success the new header is prepended with offset 0 and every
existing header's offset grows by `size`. -/
def SKBuff.Push (s : SKBuff) (protocol : String) (size : Int) : Bool × SKBuff :=
  let newData := s.Data - size
  if newData < s.Head then
    (false, s)
  else
    let header : ProtocolHeader := { Protocol := protocol, Offset := 0, Size := size }
    let shifted := s.Layers.map (fun h => { h with Offset := h.Offset + size })
    (true, { s with Data := newData, Layers := header :: shifted })

/-- `(*SKBuff).Pull` from `skbuff.go`: strip leading bytes, moving `Data`
forward; the first header (if any) is removed and the remaining offsets
shrink by `size`. -/
def SKBuff.Pull (s : SKBuff) (size : Int) : Bool × SKBuff :=
  let newData := s.Data + size
  if newData > s.Tail then
    (false, s)
  else
    match s.Layers with
    | [] => (true, { s with Data := newData })
    | _ :: rest =>
        (true, { s with Data := newData,
                        Layers := rest.map (fun h => { h with Offset := h.Offset - size }) })

/-- `(*SKBuff).Put` from `skbuff.go`: append trailing bytes, moving `Tail`
forward. -/
def SKBuff.Put (s : SKBuff) (size : Int) : Bool × SKBuff :=
  let newTail := s.Tail + size
  if newTail > s.End then
    (false, s)
  else
    (true, { s with Tail := newTail })

/-- `(*SKBuff).Headroom` from `skbuff.go`. -/
def SKBuff.Headroom (s : SKBuff) : Int := s.Data - s.Head

/-- `(*SKBuff).Tailroom` from `skbuff.go`. -/
def SKBuff.Tailroom (s : SKBuff) : Int := s.End - s.Tail

/-- `(*SKBuff).Len` from `skbuff.go`. -/
def SKBuff.Len (s : SKBuff) : Int := s.Tail - s.Data

/-- `(*SKBuff).Clone` from `skbuff.go`: field-by-field copy with a freshly
allocated layer slice (value-identical in this embedding). -/
def SKBuff.Clone (s : SKBuff) : SKBuff :=
  { Head := s.Head, Data := s.Data, Tail := s.Tail, End := s.End, Layers := s.Layers }

/-- `NewSKBuff` from `skbuff.go`. -/
def NewSKBuff (totalSize : Int) : SKBuff :=
  { Head := 0, Data := totalSize, Tail := totalSize, End := totalSize, Layers := [] }

/-- `NewSKBuffWithPayload` from `skbuff.go` (trailing-payload mode). -/
def NewSKBuffWithPayload (totalSize payloadSize : Int) : SKBuff :=
  { Head := 0, Data := totalSize - payloadSize, Tail := totalSize, End := totalSize,
    Layers := [] }

/-- Header-size constants from `function.go`. -/
def EthernetHeaderSize : Int := 14

/-- Minimum IPv4 header size, from `function.go`. -/
def IPv4HeaderSize : Int := 20

/-- Fixed IPv6 header size, from `function.go`. -/
def IPv6HeaderSize : Int := 40

/-- Minimum TCP header size, from `function.go`. -/
def TCPHeaderSize : Int := 20

/-- Fixed UDP header size, from `function.go`. -/
def UDPHeaderSize : Int := 8

/-- Minimum ICMP header size, from `function.go`. -/
def ICMPHeaderSize : Int := 8

/-- `NewSKBuffForIngress` from the ingress path builder (leading-complete
mode): full packet already present, headers pre-populated outer-to-inner. -/
def NewSKBuffForIngress (totalSize payloadSize : Int) : SKBuff :=
  { Head := 0
    Data := 0
    Tail := (EthernetHeaderSize + IPv4HeaderSize + TCPHeaderSize) + payloadSize
    End := totalSize
    Layers := [
      { Protocol := "ethernet", Offset := 0, Size := EthernetHeaderSize },
      { Protocol := "ip", Offset := EthernetHeaderSize, Size := IPv4HeaderSize },
      { Protocol := "tcp", Offset := EthernetHeaderSize + IPv4HeaderSize,
        Size := TCPHeaderSize } ] }

/-- The spec's BufferState invariant `0 ≤ head ≤ data ≤ tail ≤ end`. -/
def skbWF (s : SKBuff) : Prop :=
  0 ≤ s.Head ∧ s.Head ≤ s.Data ∧ s.Data ≤ s.Tail ∧ s.Tail ≤ s.End

instance (s : SKBuff) : Decidable (skbWF s) := by
  unfold skbWF; infer_instance

/-- One buffer mutation request, as issued against an `SKBuff` during a run. -/
inductive BufOp where
  | push (protocol : String) (size : Int)
  | pull (size : Int)
  | put (size : Int)
  deriving DecidableEq, Repr

/-- The size argument carried by a buffer operation. -/
def BufOp.size : BufOp → Int
  | .push _ n => n
  | .pull n => n
  | .put n => n

/-- Apply one buffer operation, keeping the state returned by the method
(whether or not the method reported success). -/
def applyBufOp (s : SKBuff) (op : BufOp) : SKBuff :=
  match op with
  | .push p n => (s.Push p n).2
  | .pull n => (s.Pull n).2
  | .put n => (s.Put n).2

/-- Run a sequence of buffer operations left to right. -/
def runBufOps (s : SKBuff) (ops : List BufOp) : SKBuff :=
  ops.foldl applyBufOp s

theorem applyBufOp_WF (s : SKBuff) (op : BufOp) (hs : skbWF s) (h : 0 ≤ op.size) :
    skbWF (applyBufOp s op) := by
  obtain ⟨h1, h2, h3, h4⟩ := hs
  cases op with
  | push p n =>
      simp only [BufOp.size] at h
      simp only [applyBufOp, SKBuff.Push]
      split
      · exact ⟨h1, h2, h3, h4⟩
      · refine ⟨h1, ?_, ?_, h4⟩ <;> simp_all <;> omega
  | pull n =>
      simp only [BufOp.size] at h
      simp only [applyBufOp, SKBuff.Pull]
      split
      · exact ⟨h1, h2, h3, h4⟩
      · rename_i hc
        cases hl : s.Layers <;> refine ⟨h1, ?_, ?_, h4⟩ <;> simp_all <;> omega
  | put n =>
      simp only [BufOp.size] at h
      simp only [applyBufOp, SKBuff.Put]
      split
      · exact ⟨h1, h2, h3, h4⟩
      · rename_i hc
        refine ⟨h1, h2, ?_, ?_⟩ <;> simp_all <;> omega

theorem runBufOps_WF (ops : List BufOp) (s : SKBuff) (hs : skbWF s)
    (hops : ∀ op ∈ ops, 0 ≤ op.size) : skbWF (runBufOps s ops) := by
  induction ops generalizing s with
  | nil => exact hs
  | cons op rest ih =>
      simp only [runBufOps, List.foldl_cons] at *
      exact ih (applyBufOp s op) (applyBufOp_WF s op hs (hops op (by simp)))
        (fun o ho => hops o (by simp [ho]))

/-- Claim C3 counterexample: in trailing-payload mode a payload larger than
the capacity already violates the invariant at construction time (`Data`
becomes negative, below `Head`), so the invariant does not hold for every
state reachable from the construction modes without further hypotheses. -/
theorem invariant_fails_for_oversized_payload :
    ¬ skbWF (NewSKBuffWithPayload 10 20) := by decide

/-- Claim C3 (amended): provided the construction parameters are consistent
(nonnegative payload that fits the capacity, together with the fixed header
block in leading-complete mode) and every push/pull/put size is
nonnegative, every state reachable from either construction mode by a
sequence of push/pull/put operations satisfies
`0 ≤ Head ≤ Data ≤ Tail ≤ End`, and headroom, tailroom and length are
never negative. -/
theorem reachable_buffer_states_satisfy_invariant (cap pay : Int) (init : SKBuff)
    (ops : List BufOp)
    (hinit : (init = NewSKBuffWithPayload cap pay ∧ 0 ≤ pay ∧ pay ≤ cap) ∨
             (init = NewSKBuffForIngress cap pay ∧ 0 ≤ pay ∧
              EthernetHeaderSize + IPv4HeaderSize + TCPHeaderSize + pay ≤ cap))
    (hops : ∀ op ∈ ops, 0 ≤ op.size) :
    skbWF (runBufOps init ops) ∧
    0 ≤ (runBufOps init ops).Headroom ∧
    0 ≤ (runBufOps init ops).Tailroom ∧
    0 ≤ (runBufOps init ops).Len := by
  have hwf0 : skbWF init := by
    rcases hinit with ⟨rfl, hp, hc⟩ | ⟨rfl, hp, hc⟩
    · refine ⟨le_refl 0, ?_, ?_, le_refl cap⟩ <;>
        simp [NewSKBuffWithPayload] <;> omega
    · refine ⟨le_refl 0, le_refl 0, ?_, ?_⟩ <;>
        simp_all [NewSKBuffForIngress, EthernetHeaderSize, IPv4HeaderSize,
          TCPHeaderSize] <;> omega
  have hwf := runBufOps_WF ops init hwf0 hops
  obtain ⟨h1, h2, h3, h4⟩ := hwf
  refine ⟨⟨h1, h2, h3, h4⟩, ?_, ?_, ?_⟩ <;>
    simp [SKBuff.Headroom, SKBuff.Tailroom, SKBuff.Len] <;> omega

/-- Claim C3 witness: a concrete run from trailing-payload construction. -/
theorem reachable_buffer_states_satisfy_invariant_witness :
    skbWF (runBufOps (NewSKBuffWithPayload 2048 1000)
        [.push "tcp" 20, .pull 5, .put 3]) ∧
    0 ≤ (runBufOps (NewSKBuffWithPayload 2048 1000)
        [.push "tcp" 20, .pull 5, .put 3]).Headroom ∧
    0 ≤ (runBufOps (NewSKBuffWithPayload 2048 1000)
        [.push "tcp" 20, .pull 5, .put 3]).Tailroom ∧
    0 ≤ (runBufOps (NewSKBuffWithPayload 2048 1000)
        [.push "tcp" 20, .pull 5, .put 3]).Len :=
  reachable_buffer_states_satisfy_invariant 2048 1000 _ _
    (Or.inl ⟨rfl, by decide, by decide⟩) (by decide)

/-- Claim C7: whenever an operation's precondition is violated — `push` with
`Data - size < Head`, `pull` with `Data + size > Tail`, `put` with
`Tail + size > End` — the method returns `false` and the whole state
(offsets and segment list) is unchanged. -/
theorem violated_precondition_returns_false_unchanged (s : SKBuff) (L : String) (n : Int) :
    (s.Data - n < s.Head → s.Push L n = (false, s)) ∧
    (s.Data + n > s.Tail → s.Pull n = (false, s)) ∧
    (s.Tail + n > s.End → s.Put n = (false, s)) := by
  refine ⟨fun h => ?_, fun h => ?_, fun h => ?_⟩
  · simp [SKBuff.Push, h]
  · simp [SKBuff.Pull, h]
  · simp [SKBuff.Put, h]

/-- Claim C7 witness: a concrete state violating all three preconditions. -/
theorem violated_precondition_returns_false_unchanged_witness :
    (⟨0, 0, 0, 0, []⟩ : SKBuff).Push "tcp" 1 = (false, ⟨0, 0, 0, 0, []⟩) ∧
    (⟨0, 0, 0, 0, []⟩ : SKBuff).Pull 1 = (false, ⟨0, 0, 0, 0, []⟩) ∧
    (⟨0, 0, 0, 0, []⟩ : SKBuff).Put 1 = (false, ⟨0, 0, 0, 0, []⟩) :=
  ⟨(violated_precondition_returns_false_unchanged ⟨0, 0, 0, 0, []⟩ "tcp" 1).1 (by decide),
   (violated_precondition_returns_false_unchanged ⟨0, 0, 0, 0, []⟩ "tcp" 1).2.1 (by decide),
   (violated_precondition_returns_false_unchanged ⟨0, 0, 0, 0, []⟩ "tcp" 1).2.2 (by decide)⟩

theorem map_offset_add_sub (n : Int) (l : List ProtocolHeader) :
    (l.map (fun h => { h with Offset := h.Offset + n })).map
      (fun h => { h with Offset := h.Offset - n }) = l := by
  induction l with
  | nil => rfl
  | cons a tl ih => cases a; simp [ih]

/-- Claim C4: on a buffer satisfying the data-model invariant, a successful
`push(L, n)` immediately followed by `pull(n)` succeeds and restores the
entire state — `Data` returns to its prior value, the pushed segment is
removed, and every other segment has its original label, offset and size. -/
theorem push_then_pull_roundtrip (s : SKBuff) (L : String) (n : Int)
    (hwf : skbWF s) (hp : (s.Push L n).1 = true) :
    ((s.Push L n).2.Pull n) = (true, s) := by
  obtain ⟨h1, h2, h3, h4⟩ := hwf
  rcases s with ⟨h0, d0, t0, e0, ls⟩
  simp only [SKBuff.Push] at hp ⊢
  by_cases hc : d0 - n < h0
  · simp [hc] at hp
  · simp only [hc, if_neg, ite_false] at hp ⊢
    simp only [SKBuff.Pull]
    have hd : d0 - n + n = d0 := by ring
    simp only [hd]
    have hng : ¬ d0 > t0 := by simp_all
    rw [if_neg hng]
    simp
    rw [← List.map_map]
    exact map_offset_add_sub n ls

/-- Claim C4 witness: the Scenario B push on the Scenario A buffer, undone. -/
theorem push_then_pull_roundtrip_witness :
    skbWF (NewSKBuffWithPayload 2048 1000) ∧
    ((NewSKBuffWithPayload 2048 1000).Push "tcp" 20).1 = true ∧
    (((NewSKBuffWithPayload 2048 1000).Push "tcp" 20).2.Pull 20) =
      (true, NewSKBuffWithPayload 2048 1000) :=
  ⟨by decide, by decide,
   push_then_pull_roundtrip (NewSKBuffWithPayload 2048 1000) "tcp" 20
     (by decide) (by decide)⟩

/-- Claim C9: leading-complete (ingress) construction yields
`Head = Data = 0`, `End = capacity`, `Tail` equal to the sum of the initial
segment sizes plus the payload size, segments pre-populated outer-to-inner
at their natural offsets, and `pull(14)` from that state succeeds with
`Data = 14` and segments `[{ip,0,20},{tcp,20,20}]`. -/
theorem ingress_construction_layout_and_pull (cap pay : Int) (hpay : 0 ≤ pay) :
    (NewSKBuffForIngress cap pay).Head = 0 ∧
    (NewSKBuffForIngress cap pay).Data = 0 ∧
    (NewSKBuffForIngress cap pay).End = cap ∧
    (NewSKBuffForIngress cap pay).Tail =
      ((NewSKBuffForIngress cap pay).Layers.map ProtocolHeader.Size).sum + pay ∧
    (NewSKBuffForIngress cap pay).Layers =
      [⟨"ethernet", 0, 14⟩, ⟨"ip", 14, 20⟩, ⟨"tcp", 34, 20⟩] ∧
    (NewSKBuffForIngress cap pay).Pull 14 =
      (true, { Head := 0, Data := 14, Tail := 54 + pay, End := cap,
               Layers := [⟨"ip", 0, 20⟩, ⟨"tcp", 20, 20⟩] }) := by
  refine ⟨rfl, rfl, rfl, ?_, ?_, ?_⟩
  · simp [NewSKBuffForIngress, EthernetHeaderSize, IPv4HeaderSize, TCPHeaderSize]
  · simp [NewSKBuffForIngress, EthernetHeaderSize, IPv4HeaderSize, TCPHeaderSize]
  · simp only [NewSKBuffForIngress, SKBuff.Pull, EthernetHeaderSize, IPv4HeaderSize,
      TCPHeaderSize]
    have hng : ¬ ((0 : Int) + 14 > 14 + 20 + 20 + pay) := by omega
    rw [if_neg hng]
    norm_num

/-- Claim C9 witness: capacity 2048, payload 1000. -/
theorem ingress_construction_layout_and_pull_witness :
    (NewSKBuffForIngress 2048 1000).Tail =
      ((NewSKBuffForIngress 2048 1000).Layers.map ProtocolHeader.Size).sum + 1000 ∧
    (NewSKBuffForIngress 2048 1000).Pull 14 =
      (true, { Head := 0, Data := 14, Tail := 54 + 1000, End := 2048,
               Layers := [⟨"ip", 0, 20⟩, ⟨"tcp", 20, 20⟩] }) :=
  ⟨(ingress_construction_layout_and_pull 2048 1000 (by decide)).2.2.2.1,
   (ingress_construction_layout_and_pull 2048 1000 (by decide)).2.2.2.2.2⟩

/-- `Layer` from the layer enumeration source file. -/
inductive Layer where
  | LayerUserSpace
  | LayerSocket
  | LayerTransport
  | LayerNetwork
  | LayerDataLink
  | LayerDriver
  deriving DecidableEq, Repr

/-- `NetfilterHook` from `netfilter.go`-style annotation source. -/
structure NetfilterHook where
  Hook : String
  Tables : List String
  Description : String
  Priority : Int
  deriving DecidableEq, Repr

/-- `BPFHook` from `bpf.go` (`Type` is a reserved word in Lean, hence `Type'`). -/
structure BPFHook where
  Type' : String
  AttachPoint : String
  Description : String
  Actions : List String
  deriving DecidableEq, Repr

/-- `ConntrackState` from `conntrack.go` (a string type in Go). -/
abbrev ConntrackState := String

/-- Conntrack state constant from `conntrack.go`. -/
def ConntrackNew : ConntrackState := "NEW"

/-- Conntrack state constant from `conntrack.go`. -/
def ConntrackEstablished : ConntrackState := "ESTABLISHED"

/-- `ConntrackEntry` from `conntrack.go`. -/
structure ConntrackEntry where
  State : ConntrackState
  Description : String
  Timeout : Int
  deriving DecidableEq, Repr

/-- `ConntrackStateDescriptions` lookup from `conntrack.go`
(only the entry used by the simulator is relevant; a missing key yields
the Go zero value `""`). -/
def ConntrackStateDescriptions (s : ConntrackState) : String :=
  if s = ConntrackNew then "New connection. First packet seen, no reply yet."
  else if s = ConntrackEstablished then
    "Connection established. Bidirectional traffic allowed."
  else ""

/-- `NewConntrackEntry` from `conntrack.go`. -/
def NewConntrackEntry (state : ConntrackState) : ConntrackEntry :=
  { State := state, Description := ConntrackStateDescriptions state, Timeout := 0 }

/-- `SKBMutation` from `function.go`. -/
structure SKBMutation where
  Operation : String
  HeaderType : String
  Size : Int
  Description : String
  deriving DecidableEq, Repr

/-- `NewPushMutation` from `function.go`. -/
def NewPushMutation (headerType : String) (size : Int) : SKBMutation :=
  { Operation := "push", HeaderType := headerType, Size := size,
    Description := "Push " ++ headerType ++ " header" }

/-- `NewPullMutation` from `function.go`. -/
def NewPullMutation (headerType : String) (size : Int) : SKBMutation :=
  { Operation := "pull", HeaderType := headerType, Size := size,
    Description := "Pull " ++ headerType ++ " header" }

/-- `NewAllocMutation` from `function.go` (`HeaderType` stays at its Go zero
value `""`). -/
def NewAllocMutation (size : Int) (description : String) : SKBMutation :=
  { Operation := "alloc", HeaderType := "", Size := size,
    Description := description }

/-- `KernelFunction` from `function.go`. -/
structure KernelFunction where
  ID : String
  Name : String
  Layer : Layer
  SourceFile : String
  LineNumber : Int
  Description : String
  SKBMutation : Option SKBMutation
  NetfilterHook : Option NetfilterHook
  BPFHook : Option BPFHook
  IsEntryPoint : Bool
  IsExitPoint : Bool
  deriving DecidableEq, Repr

/-- `FunctionEdge` from the graph source file. -/
structure FunctionEdge where
  From : String
  To : String
  Condition : String
  IsErrorPath : Bool
  Order : Int
  deriving DecidableEq, Repr

/-- `PacketPath` from the graph source file. -/
structure PacketPath where
  ID : String
  Name : String
  Description : String
  Direction : String
  Protocol : String
  Functions : List KernelFunction
  Edges : List FunctionEdge
  EntryPoint : String
  ExitPoints : List String
  deriving DecidableEq, Repr

/-- `FunctionGraph`: the Go struct holds two maps built from the path's
lists; here the lists are kept and the map lookups are modelled on them. -/
structure FunctionGraph where
  functions : List KernelFunction
  edges : List FunctionEdge
  deriving DecidableEq, Repr

/-- `NewFunctionGraph` from the graph source file. -/
def NewFunctionGraph (path : PacketPath) : FunctionGraph :=
  { functions := path.Functions, edges := path.Edges }

/-- `(*FunctionGraph).GetFunction`: Go map lookup by ID; insertion into the
map iterates the list in order and overwrites, so the last matching entry
wins. -/
def FunctionGraph.GetFunction (g : FunctionGraph) (id : String) : Option KernelFunction :=
  g.functions.reverse.find? (fun f => f.ID = id)

/-- `(*FunctionGraph).GetOutgoingEdges`: adjacency entries are appended in
edge-list order, so the result is the sublist of edges out of `id`, in
original definition order. -/
def FunctionGraph.GetOutgoingEdges (g : FunctionGraph) (id : String) : List FunctionEdge :=
  g.edges.filter (fun e => e.From = id)

/-- `(*FunctionGraph).GetNextFunctions` from the graph source file. -/
def FunctionGraph.GetNextFunctions (g : FunctionGraph) (id : String) : List String :=
  (g.GetOutgoingEdges id).map (fun e => e.To)

/-- `SimulateStep` from the graph source file. -/
structure SimulateStep where
  StepNumber : Int
  Function : KernelFunction
  SKBuffState : SKBuff
  EdgeTaken : Option FunctionEdge
  ConntrackState : Option ConntrackEntry
  deriving DecidableEq, Repr

/-- The mutation switch inside `Simulate`/`SimulateIngress`: the returned
booleans of `Push`/`Pull`/`Put` are discarded, and any operation other
than `"push"`, `"pull"`, `"put"` falls through the switch untouched. -/
def applySKBMutation (m : Option SKBMutation) (skb : SKBuff) : SKBuff :=
  match m with
  | none => skb
  | some mu =>
      if mu.Operation = "push" then (skb.Push mu.HeaderType mu.Size).2
      else if mu.Operation = "pull" then (skb.Pull mu.Size).2
      else if mu.Operation = "put" then (skb.Put mu.Size).2
      else skb

/-- Next-node selection at the bottom of the `Simulate` loop: `currentID`
is reset to `""` and the first outgoing non-error edge (in adjacency
order) redirects it. -/
def nextCurrent (g : FunctionGraph) (id : String) : String :=
  match (g.GetOutgoingEdges id).find? (fun e => !e.IsErrorPath) with
  | some e => e.To
  | none => ""

/-- The set of function IDs present in the graph's function map. -/
def FunctionGraph.funIds (g : FunctionGraph) : Finset String :=
  (g.functions.map KernelFunction.ID).toFinset

theorem GetFunction_mem_funIds {g : FunctionGraph} {id : String} {fn : KernelFunction}
    (h : g.GetFunction id = some fn) : id ∈ g.funIds := by
  unfold FunctionGraph.GetFunction at h
  have hmem := List.mem_of_find?_eq_some h
  have hp := List.find?_some h
  simp only [decide_eq_true_eq] at hp
  unfold FunctionGraph.funIds
  rw [List.mem_toFinset, List.mem_map]
  exact ⟨fn, List.mem_reverse.mp hmem, hp⟩

theorem GetFunction_ID {g : FunctionGraph} {id : String} {fn : KernelFunction}
    (h : g.GetFunction id = some fn) : fn.ID = id := by
  have hp := List.find?_some h
  simpa using hp

theorem card_sdiff_insert_lt (g : FunctionGraph) (cur : String) (visited : Finset String)
    (hid : cur ∈ g.funIds) (hnv : cur ∉ visited) :
    (g.funIds \ insert cur visited).card < (g.funIds \ visited).card := by
  apply Finset.card_lt_card
  rw [Finset.ssubset_def]
  constructor
  · intro x hx
    rcases Finset.mem_sdiff.mp hx with ⟨hx1, hx2⟩
    exact Finset.mem_sdiff.mpr ⟨hx1, fun hxv => hx2 (Finset.mem_insert_of_mem hxv)⟩
  · intro hsub
    have hmem := hsub (Finset.mem_sdiff.mpr ⟨hid, hnv⟩)
    exact (Finset.mem_sdiff.mp hmem).2 (Finset.mem_insert_self _ _)

/-- The traversal loop shared verbatim by `Simulate` and `SimulateIngress`:
while the current ID is nonempty and unvisited, mark it visited, look the
function up (stopping silently when missing), apply its mutation, emit a
step with a clone of the buffer, and move to the target of the first
non-error outgoing edge. -/
def simulateLoop (g : FunctionGraph) (conn : Option ConntrackEntry) (skb : SKBuff)
    (currentID : String) (stepNum : Int) (visited : Finset String) :
    List SimulateStep :=
  if h : currentID = "" ∨ currentID ∈ visited then []
  else
    match hf : g.GetFunction currentID with
    | none => []
    | some fn =>
        let skb' := applySKBMutation fn.SKBMutation skb
        let step : SimulateStep :=
          { StepNumber := stepNum, Function := fn, SKBuffState := skb'.Clone,
            EdgeTaken := none, ConntrackState := conn }
        step :: simulateLoop g conn skb' (nextCurrent g currentID) (stepNum + 1)
          (insert currentID visited)
  termination_by (g.funIds \ visited).card
  decreasing_by
    exact card_sdiff_insert_lt g currentID visited (GetFunction_mem_funIds hf)
      (fun hc => h (Or.inr hc))

/-- `(*PacketPath).Simulate` from the graph source file. -/
def PacketPath.Simulate (path : PacketPath) (initialBufferSize payloadSize : Int) :
    List SimulateStep :=
  let graph := NewFunctionGraph path
  let skb := NewSKBuffWithPayload initialBufferSize payloadSize
  let conntrackState := NewConntrackEntry ConntrackEstablished
  simulateLoop graph (some conntrackState) skb path.EntryPoint 1 ∅

/-- `(*PacketPath).SimulateIngress` from the graph source file: the same
loop, starting from the leading-complete buffer. -/
def PacketPath.SimulateIngress (path : PacketPath) (initialBufferSize payloadSize : Int) :
    List SimulateStep :=
  let graph := NewFunctionGraph path
  let skb := NewSKBuffForIngress initialBufferSize payloadSize
  let conntrackState := NewConntrackEntry ConntrackEstablished
  simulateLoop graph (some conntrackState) skb path.EntryPoint 1 ∅

theorem simulateLoop_stop (g : FunctionGraph) (conn : Option ConntrackEntry)
    (skb : SKBuff) (cur : String) (n : Int) (visited : Finset String)
    (h : cur = "" ∨ cur ∈ visited) :
    simulateLoop g conn skb cur n visited = [] := by
  rw [simulateLoop.eq_def]
  simp [h]

theorem simulateLoop_missing (g : FunctionGraph) (conn : Option ConntrackEntry)
    (skb : SKBuff) (cur : String) (n : Int) (visited : Finset String)
    (h : ¬ (cur = "" ∨ cur ∈ visited)) (hf : g.GetFunction cur = none) :
    simulateLoop g conn skb cur n visited = [] := by
  rw [simulateLoop.eq_def]
  rw [dif_neg h]
  split
  · rfl
  · rename_i fn heq
    rw [hf] at heq
    cases heq

theorem simulateLoop_step (g : FunctionGraph) (conn : Option ConntrackEntry)
    (skb : SKBuff) (cur : String) (n : Int) (visited : Finset String)
    (fn : KernelFunction)
    (h : ¬ (cur = "" ∨ cur ∈ visited)) (hf : g.GetFunction cur = some fn) :
    simulateLoop g conn skb cur n visited =
      { StepNumber := n, Function := fn,
        SKBuffState := (applySKBMutation fn.SKBMutation skb).Clone,
        EdgeTaken := none, ConntrackState := conn } ::
      simulateLoop g conn (applySKBMutation fn.SKBMutation skb) (nextCurrent g cur)
        (n + 1) (insert cur visited) := by
  conv_lhs => rw [simulateLoop.eq_def]
  rw [dif_neg h]
  split
  · rename_i heq
    rw [hf] at heq
    cases heq
  · rename_i fn' heq
    rw [hf] at heq
    cases heq
    rfl

/-- `Clone` is the identity on the value level of this embedding. -/
theorem SKBuff.Clone_eq (s : SKBuff) : s.Clone = s := rfl

/-- The mutation requested at a node fails: its operation is one of the
three known ones and the corresponding method reports `false`. -/
def mutationFails (mu : SKBMutation) (skb : SKBuff) : Prop :=
  (mu.Operation = "push" ∧ (skb.Push mu.HeaderType mu.Size).1 = false) ∨
  (mu.Operation = "pull" ∧ (skb.Pull mu.Size).1 = false) ∨
  (mu.Operation = "put" ∧ (skb.Put mu.Size).1 = false)

instance (mu : SKBMutation) (skb : SKBuff) : Decidable (mutationFails mu skb) := by
  unfold mutationFails; infer_instance

theorem Push_failed_unchanged (s : SKBuff) (p : String) (n : Int)
    (h : (s.Push p n).1 = false) : (s.Push p n).2 = s := by
  by_cases hc : s.Data - n < s.Head
  · simp [SKBuff.Push, hc]
  · simp [SKBuff.Push, hc] at h

theorem Pull_failed_unchanged (s : SKBuff) (n : Int)
    (h : (s.Pull n).1 = false) : (s.Pull n).2 = s := by
  by_cases hc : s.Data + n > s.Tail
  · simp [SKBuff.Pull, hc]
  · simp only [SKBuff.Pull] at h
    rw [if_neg hc] at h
    cases hl : s.Layers <;> rw [hl] at h <;> simp at h

theorem Put_failed_unchanged (s : SKBuff) (n : Int)
    (h : (s.Put n).1 = false) : (s.Put n).2 = s := by
  by_cases hc : s.Tail + n > s.End
  · simp [SKBuff.Put, hc]
  · simp [SKBuff.Put, hc] at h

theorem applySKBMutation_of_fails (mu : SKBMutation) (skb : SKBuff)
    (hfail : mutationFails mu skb) : applySKBMutation (some mu) skb = skb := by
  rcases hfail with ⟨ho, hb⟩ | ⟨ho, hb⟩ | ⟨ho, hb⟩ <;> simp [applySKBMutation, ho]
  · exact Push_failed_unchanged _ _ _ hb
  · exact Pull_failed_unchanged _ _ hb
  · exact Put_failed_unchanged _ _ hb

theorem applySKBMutation_of_unknown (mu : SKBMutation) (skb : SKBuff)
    (h1 : mu.Operation ≠ "push") (h2 : mu.Operation ≠ "pull")
    (h3 : mu.Operation ≠ "put") : applySKBMutation (some mu) skb = skb := by
  simp [applySKBMutation, h1, h2, h3]

theorem simulateLoop_length_le (g : FunctionGraph) (conn : Option ConntrackEntry)
    (skb : SKBuff) (cur : String) (n : Int) (visited : Finset String) :
    (simulateLoop g conn skb cur n visited).length ≤ (g.funIds \ visited).card := by
  induction skb, cur, n, visited using simulateLoop.induct g conn with
  | case1 skb cur n visited h =>
      rw [simulateLoop_stop _ _ _ _ _ _ h]; simp
  | case2 skb cur n visited h hf =>
      rw [simulateLoop_missing _ _ _ _ _ _ h hf]; simp
  | case3 skb cur n visited h fn hf skb' ih =>
      rw [simulateLoop_step _ _ _ _ _ _ fn h hf]
      have ih2 : (simulateLoop g conn (applySKBMutation fn.SKBMutation skb)
          (nextCurrent g cur) (n + 1) (insert cur visited)).length ≤
          (g.funIds \ insert cur visited).card := ih
      have hlt := card_sdiff_insert_lt g cur visited (GetFunction_mem_funIds hf)
        (fun hc => h (Or.inr hc))
      simp only [List.length_cons]
      omega

theorem simulateLoop_ids_fresh_nodup (g : FunctionGraph) (conn : Option ConntrackEntry)
    (skb : SKBuff) (cur : String) (n : Int) (visited : Finset String) :
    (∀ st ∈ simulateLoop g conn skb cur n visited, st.Function.ID ∉ visited) ∧
    ((simulateLoop g conn skb cur n visited).map (fun st => st.Function.ID)).Nodup := by
  induction skb, cur, n, visited using simulateLoop.induct g conn with
  | case1 skb cur n visited h =>
      rw [simulateLoop_stop _ _ _ _ _ _ h]; simp
  | case2 skb cur n visited h hf =>
      rw [simulateLoop_missing _ _ _ _ _ _ h hf]; simp
  | case3 skb cur n visited h fn hf skb' ih =>
      rw [simulateLoop_step _ _ _ _ _ _ fn h hf]
      have ih2 : (∀ st ∈ simulateLoop g conn (applySKBMutation fn.SKBMutation skb)
            (nextCurrent g cur) (n + 1) (insert cur visited),
            st.Function.ID ∉ insert cur visited) ∧
          ((simulateLoop g conn (applySKBMutation fn.SKBMutation skb)
            (nextCurrent g cur) (n + 1) (insert cur visited)).map
            (fun st => st.Function.ID)).Nodup := ih
      obtain ⟨ihf, ihn⟩ := ih2
      have hid : fn.ID = cur := GetFunction_ID hf
      constructor
      · intro st hst
        rcases List.mem_cons.mp hst with rfl | hst'
        · show fn.ID ∉ visited
          rw [hid]
          exact fun hc => h (Or.inr hc)
        · exact fun hc => ihf st hst' (Finset.mem_insert_of_mem hc)
      · rw [List.map_cons, List.nodup_cons]
        refine ⟨?_, ihn⟩
        intro hmem
        rcases List.mem_map.mp hmem with ⟨st, hst, hsteq⟩
        apply ihf st hst
        simp only [hid] at hsteq
        rw [hsteq]
        exact Finset.mem_insert_self cur visited

theorem simulateLoop_revisit_terminates (g : FunctionGraph) (conn : Option ConntrackEntry)
    (skb : SKBuff) (cur : String) (n : Int) (visited : Finset String) :
    ∀ (i : Nat) (st : SimulateStep),
      (simulateLoop g conn skb cur n visited)[i]? = some st →
      (nextCurrent g st.Function.ID ∈ visited ∨
       nextCurrent g st.Function.ID ∈
         ((simulateLoop g conn skb cur n visited).take (i + 1)).map
           (fun s => s.Function.ID)) →
      i + 1 = (simulateLoop g conn skb cur n visited).length := by
  induction skb, cur, n, visited using simulateLoop.induct g conn with
  | case1 skb cur n visited h =>
      intro i st hst
      rw [simulateLoop_stop _ _ _ _ _ _ h] at hst
      simp at hst
  | case2 skb cur n visited h hf =>
      intro i st hst
      rw [simulateLoop_missing _ _ _ _ _ _ h hf] at hst
      simp at hst
  | case3 skb cur n visited h fn hf skb' ih =>
      intro i st hst hnext
      have ih2 : ∀ (i : Nat) (st : SimulateStep),
          (simulateLoop g conn (applySKBMutation fn.SKBMutation skb)
            (nextCurrent g cur) (n + 1) (insert cur visited))[i]? = some st →
          (nextCurrent g st.Function.ID ∈ insert cur visited ∨
           nextCurrent g st.Function.ID ∈
             ((simulateLoop g conn (applySKBMutation fn.SKBMutation skb)
               (nextCurrent g cur) (n + 1) (insert cur visited)).take (i + 1)).map
               (fun s => s.Function.ID)) →
          i + 1 = (simulateLoop g conn (applySKBMutation fn.SKBMutation skb)
            (nextCurrent g cur) (n + 1) (insert cur visited)).length := ih
      rw [simulateLoop_step _ _ _ _ _ _ fn h hf] at hst hnext ⊢
      have hid : fn.ID = cur := GetFunction_ID hf
      cases i with
      | zero =>
          rw [List.getElem?_cons_zero] at hst
          obtain rfl := Option.some.inj hst
          simp only [List.take_succ_cons, List.take_zero, List.map_cons,
            List.map_nil] at hnext
          have hcur : nextCurrent g cur ∈ insert cur visited := by
            simp only [hid] at hnext
            rcases hnext with hv | hm
            · exact Finset.mem_insert_of_mem hv
            · have heq := List.mem_singleton.mp hm
              rw [heq]
              exact Finset.mem_insert_self cur visited
          have hrest : simulateLoop g conn (applySKBMutation fn.SKBMutation skb)
              (nextCurrent g cur) (n + 1) (insert cur visited) = [] :=
            simulateLoop_stop _ _ _ _ _ _ (Or.inr hcur)
          simp [hrest]
      | succ j =>
          rw [List.getElem?_cons_succ] at hst
          simp only [List.take_succ_cons, List.map_cons] at hnext
          have hmem : nextCurrent g st.Function.ID ∈ insert cur visited ∨
              nextCurrent g st.Function.ID ∈
                ((simulateLoop g conn (applySKBMutation fn.SKBMutation skb)
                  (nextCurrent g cur) (n + 1) (insert cur visited)).take (j + 1)).map
                  (fun s => s.Function.ID) := by
            rcases hnext with hv | hm
            · exact Or.inl (Finset.mem_insert_of_mem hv)
            · rcases List.mem_cons.mp hm with heq | hm'
              · simp only [hid] at heq
                rw [heq]
                exact Or.inl (Finset.mem_insert_self cur visited)
              · exact Or.inr hm'
          have := ih2 j st hst hmem
          simp only [List.length_cons]
          omega

theorem simulateLoop_snapshot_fold (g : FunctionGraph) (conn : Option ConntrackEntry)
    (skb : SKBuff) (cur : String) (n : Int) (visited : Finset String) :
    ∀ (i : Nat) (st : SimulateStep),
      (simulateLoop g conn skb cur n visited)[i]? = some st →
      st.SKBuffState =
        (((simulateLoop g conn skb cur n visited).take (i + 1)).map
          (fun s => s.Function.SKBMutation)).foldl
          (fun b m => applySKBMutation m b) skb := by
  induction skb, cur, n, visited using simulateLoop.induct g conn with
  | case1 skb cur n visited h =>
      intro i st hst
      rw [simulateLoop_stop _ _ _ _ _ _ h] at hst
      simp at hst
  | case2 skb cur n visited h hf =>
      intro i st hst
      rw [simulateLoop_missing _ _ _ _ _ _ h hf] at hst
      simp at hst
  | case3 skb cur n visited h fn hf skb' ih =>
      intro i st hst
      have ih2 : ∀ (i : Nat) (st : SimulateStep),
          (simulateLoop g conn (applySKBMutation fn.SKBMutation skb)
            (nextCurrent g cur) (n + 1) (insert cur visited))[i]? = some st →
          st.SKBuffState =
            (((simulateLoop g conn (applySKBMutation fn.SKBMutation skb)
              (nextCurrent g cur) (n + 1) (insert cur visited)).take (i + 1)).map
              (fun s => s.Function.SKBMutation)).foldl
              (fun b m => applySKBMutation m b) (applySKBMutation fn.SKBMutation skb) := ih
      rw [simulateLoop_step _ _ _ _ _ _ fn h hf] at hst ⊢
      cases i with
      | zero =>
          rw [List.getElem?_cons_zero] at hst
          obtain rfl := Option.some.inj hst
          simp only [List.take_succ_cons, List.take_zero, List.map_cons, List.map_nil,
            List.foldl_cons, List.foldl_nil]
          exact SKBuff.Clone_eq _
      | succ j =>
          rw [List.getElem?_cons_succ] at hst
          simp only [List.take_succ_cons, List.map_cons, List.foldl_cons]
          exact ih2 j st hst

theorem simulateLoop_successor_edge (g : FunctionGraph) (conn : Option ConntrackEntry)
    (skb : SKBuff) (cur : String) (n : Int) (visited : Finset String) :
    ∀ (i : Nat) (st st' : SimulateStep),
      (simulateLoop g conn skb cur n visited)[i]? = some st →
      (simulateLoop g conn skb cur n visited)[i + 1]? = some st' →
      ∃ e, (g.GetOutgoingEdges st.Function.ID).find? (fun e => !e.IsErrorPath) = some e ∧
        e.IsErrorPath = false ∧ e.To = st'.Function.ID := by
  induction skb, cur, n, visited using simulateLoop.induct g conn with
  | case1 skb cur n visited h =>
      intro i st st' hst hst'
      rw [simulateLoop_stop _ _ _ _ _ _ h] at hst
      simp at hst
  | case2 skb cur n visited h hf =>
      intro i st st' hst hst'
      rw [simulateLoop_missing _ _ _ _ _ _ h hf] at hst
      simp at hst
  | case3 skb cur n visited h fn hf skb' ih =>
      intro i st st' hst hst'
      have ih2 : ∀ (i : Nat) (st st' : SimulateStep),
          (simulateLoop g conn (applySKBMutation fn.SKBMutation skb)
            (nextCurrent g cur) (n + 1) (insert cur visited))[i]? = some st →
          (simulateLoop g conn (applySKBMutation fn.SKBMutation skb)
            (nextCurrent g cur) (n + 1) (insert cur visited))[i + 1]? = some st' →
          ∃ e, (g.GetOutgoingEdges st.Function.ID).find? (fun e => !e.IsErrorPath) = some e ∧
            e.IsErrorPath = false ∧ e.To = st'.Function.ID := ih
      rw [simulateLoop_step _ _ _ _ _ _ fn h hf] at hst hst'
      have hid : fn.ID = cur := GetFunction_ID hf
      cases i with
      | zero =>
          rw [List.getElem?_cons_zero] at hst
          obtain rfl := Option.some.inj hst
          rw [List.getElem?_cons_succ] at hst'
          by_cases hg : nextCurrent g cur = "" ∨ nextCurrent g cur ∈ insert cur visited
          · rw [simulateLoop_stop _ _ _ _ _ _ hg] at hst'
            simp at hst'
          · cases hf2 : g.GetFunction (nextCurrent g cur) with
            | none =>
                rw [simulateLoop_missing _ _ _ _ _ _ hg hf2] at hst'
                simp at hst'
            | some fn2 =>
                rw [simulateLoop_step _ _ _ _ _ _ fn2 hg hf2] at hst'
                rw [List.getElem?_cons_zero] at hst'
                obtain rfl := Option.some.inj hst'
                have hne : nextCurrent g cur ≠ "" := fun hc => hg (Or.inl hc)
                have hid2 : fn2.ID = nextCurrent g cur := GetFunction_ID hf2
                cases hfind : (g.GetOutgoingEdges cur).find? (fun e => !e.IsErrorPath) with
                | none =>
                    exfalso
                    apply hne
                    unfold nextCurrent
                    rw [hfind]
                | some e =>
                    have hTo : nextCurrent g cur = e.To := by
                      unfold nextCurrent
                      rw [hfind]
                    refine ⟨e, ?_, ?_, ?_⟩
                    · simp only [hid]
                      exact hfind
                    · have := List.find?_some hfind
                      simpa using this
                    · simp only [hid2]
                      rw [hTo]
      | succ j =>
          rw [List.getElem?_cons_succ] at hst
          rw [List.getElem?_cons_succ] at hst'
          exact ih2 j st st' hst hst'

/-- Test fixture: a kernel function with the given ID and mutation. -/
def mkFn (id : String) (mu : Option SKBMutation) : KernelFunction :=
  { ID := id, Name := id, Layer := .LayerDriver, SourceFile := "", LineNumber := 0,
    Description := "", SKBMutation := mu, NetfilterHook := none, BPFHook := none,
    IsEntryPoint := false, IsExitPoint := false }

/-- Test fixture: a non-error edge. -/
def mkEdge (f t : String) (ord : Int) : FunctionEdge :=
  { From := f, To := t, Condition := "", IsErrorPath := false, Order := ord }

/-- The conntrack value every simulated step carries. -/
def connEst : Option ConntrackEntry := some (NewConntrackEntry ConntrackEstablished)

/-- The initial buffer of a `Simulate 100 10` run. -/
def skb0 : SKBuff := NewSKBuffWithPayload 100 10

/-- Test fixture: two nodes with an edge back to the entry (`a → b → a`). -/
def pathLoop : PacketPath :=
  { ID := "loop", Name := "", Description := "", Direction := "egress",
    Protocol := "TCP", Functions := [mkFn "a" none, mkFn "b" none],
    Edges := [mkEdge "a" "b" 1, mkEdge "b" "a" 1],
    EntryPoint := "a", ExitPoints := [] }

/-- First step of the `pathLoop` run. -/
def stepL1 : SimulateStep :=
  { StepNumber := 1, Function := mkFn "a" none, SKBuffState := skb0,
    EdgeTaken := none, ConntrackState := connEst }

/-- Second step of the `pathLoop` run. -/
def stepL2 : SimulateStep :=
  { StepNumber := 2, Function := mkFn "b" none, SKBuffState := skb0,
    EdgeTaken := none, ConntrackState := connEst }

theorem evalLoop : pathLoop.Simulate 100 10 = [stepL1, stepL2] := by
  show simulateLoop (NewFunctionGraph pathLoop) connEst skb0 "a" 1 ∅ = _
  rw [simulateLoop_step _ _ _ _ _ _ (mkFn "a" none) (by decide) (by decide)]
  rw [simulateLoop_step _ _ _ _ _ _ (mkFn "b" none) (by decide) (by decide)]
  rw [simulateLoop_stop _ _ _ _ _ _ (by decide)]
  rfl

/-- Test fixture: two non-error edges out of `"a"`, listed with `Order` 2
before `Order` 1. -/
def pathOrder : PacketPath :=
  { ID := "order", Name := "", Description := "", Direction := "egress",
    Protocol := "TCP",
    Functions := [mkFn "a" none, mkFn "b" none, mkFn "c" none],
    Edges := [mkEdge "a" "b" 2, mkEdge "a" "c" 1],
    EntryPoint := "a", ExitPoints := [] }

theorem evalOrder : pathOrder.Simulate 100 10 =
    [ { StepNumber := 1, Function := mkFn "a" none, SKBuffState := skb0,
        EdgeTaken := none, ConntrackState := connEst },
      { StepNumber := 2, Function := mkFn "b" none, SKBuffState := skb0,
        EdgeTaken := none, ConntrackState := connEst } ] := by
  show simulateLoop (NewFunctionGraph pathOrder) connEst skb0 "a" 1 ∅ = _
  rw [simulateLoop_step _ _ _ _ _ _ (mkFn "a" none) (by decide) (by decide)]
  rw [simulateLoop_step _ _ _ _ _ _ (mkFn "b" none) (by decide) (by decide)]
  rw [simulateLoop_stop _ _ _ _ _ _ (by decide)]
  rfl

/-- Test fixture: entry node pushes 20 bytes successfully, successor is
mutation-free. -/
def pathPush : PacketPath :=
  { ID := "push", Name := "", Description := "", Direction := "egress",
    Protocol := "TCP",
    Functions := [mkFn "pa" (some (NewPushMutation "tcp" 20)), mkFn "pb" none],
    Edges := [mkEdge "pa" "pb" 1],
    EntryPoint := "pa", ExitPoints := [] }

/-- The buffer after the successful push of `pathPush`. -/
def skbP1 : SKBuff :=
  { Head := 0, Data := 70, Tail := 100, End := 100, Layers := [⟨"tcp", 0, 20⟩] }

/-- First step of the `pathPush` run. -/
def stepP1 : SimulateStep :=
  { StepNumber := 1, Function := mkFn "pa" (some (NewPushMutation "tcp" 20)),
    SKBuffState := skbP1, EdgeTaken := none, ConntrackState := connEst }

/-- Second step of the `pathPush` run. -/
def stepP2 : SimulateStep :=
  { StepNumber := 2, Function := mkFn "pb" none, SKBuffState := skbP1,
    EdgeTaken := none, ConntrackState := connEst }

theorem evalPush : pathPush.Simulate 100 10 = [stepP1, stepP2] := by
  show simulateLoop (NewFunctionGraph pathPush) connEst skb0 "pa" 1 ∅ = _
  rw [simulateLoop_step _ _ _ _ _ _ (mkFn "pa" (some (NewPushMutation "tcp" 20)))
    (by decide) (by decide)]
  rw [simulateLoop_step _ _ _ _ _ _ (mkFn "pb" none) (by decide) (by decide)]
  rw [simulateLoop_stop _ _ _ _ _ _ (by decide)]
  rfl

/-- Test fixture: entry node requests a push of 1000 bytes (more than the
headroom of a 100-byte buffer with a 10-byte payload), successor follows. -/
def pathFail : PacketPath :=
  { ID := "fail", Name := "", Description := "", Direction := "egress",
    Protocol := "TCP",
    Functions := [mkFn "m" (some (NewPushMutation "tcp" 1000)), mkFn "z" none],
    Edges := [mkEdge "m" "z" 1],
    EntryPoint := "m", ExitPoints := [] }

/-- Test fixture: entry node carries an `"alloc"` mutation, as the shipped
egress catalog's first node does. -/
def pathAlloc : PacketPath :=
  { ID := "alloc", Name := "", Description := "", Direction := "egress",
    Protocol := "TCP",
    Functions := [mkFn "al" (some (NewAllocMutation 2048
      "Allocate sk_buff with headroom for all protocol headers")), mkFn "zz" none],
    Edges := [mkEdge "al" "zz" 1],
    EntryPoint := "al", ExitPoints := [] }

/-- Claim C1: the Go `Simulate` constructs every `SimulateStep` literal
without ever assigning `EdgeTaken`, so every step — including steps reached
through an edge — carries no edge, against the field's own documentation
(`nil` for the entry point only). Concretely: a two-step run whose second
step was reached through the edge `a → b` still has `EdgeTaken = none`. -/
theorem simulate_never_assigns_edgeTaken :
    (pathLoop.Simulate 100 10).length = 2 ∧
    (pathLoop.Simulate 100 10).map SimulateStep.EdgeTaken = [none, none] := by
  rw [evalLoop]
  exact ⟨rfl, rfl⟩

/-- Modelled from the spec's words, for comparison with the code (claim C2):
among the outgoing non-error edges of a node, the edge with the lowest
`Order` value. -/
def lowestOrderNonErrorEdge (edges : List FunctionEdge) (id : String) :
    Option FunctionEdge :=
  (edges.filter (fun e => e.From = id && !e.IsErrorPath)).foldl
    (fun acc e =>
      match acc with
      | none => some e
      | some b => if e.Order < b.Order then some e else some b) none

/-- Claim C2 counterexample: in `pathOrder` the non-error edges out of `"a"`
are listed with `Order` 2 before `Order` 1; the lowest-`Order` edge targets
`"c"`, but the run's second visited node is `"b"` — the simulator follows
edge-definition order, not the `Order` field. -/
theorem second_node_differs_from_lowest_order_target :
    (lowestOrderNonErrorEdge pathOrder.Edges "a").map (fun e => e.To) = some "c" ∧
    ((pathOrder.Simulate 100 10).map (fun st => st.Function.ID))[1]? = some "b" ∧
    ¬ (((pathOrder.Simulate 100 10).map (fun st => st.Function.ID))[1]? =
        (lowestOrderNonErrorEdge pathOrder.Edges "a").map (fun e => e.To)) := by
  refine ⟨by decide, ?_, ?_⟩ <;> rw [evalOrder] <;> decide

/-- Claim C2 (amended): the node visited after every step is the target of
the first non-error outgoing edge in edge-definition order (the order the
adjacency list preserves), and the taken edge is never an error-path
edge. -/
theorem simulate_successor_first_nonerror_in_definition_order (path : PacketPath)
    (b p : Int) (i : Nat) (st st' : SimulateStep)
    (hst : (path.Simulate b p)[i]? = some st)
    (hst' : (path.Simulate b p)[i + 1]? = some st') :
    ∃ e, ((NewFunctionGraph path).GetOutgoingEdges st.Function.ID).find?
        (fun e => !e.IsErrorPath) = some e ∧
      e.IsErrorPath = false ∧ e.To = st'.Function.ID :=
  simulateLoop_successor_edge (NewFunctionGraph path)
    (some (NewConntrackEntry ConntrackEstablished)) (NewSKBuffWithPayload b p)
    path.EntryPoint 1 ∅ i st st' hst hst'

/-- Claim C2 (amended) witness: consecutive steps of the `pathLoop` run. -/
theorem simulate_successor_first_nonerror_in_definition_order_witness :
    ∃ e, ((NewFunctionGraph pathLoop).GetOutgoingEdges stepL1.Function.ID).find?
        (fun e => !e.IsErrorPath) = some e ∧
      e.IsErrorPath = false ∧ e.To = stepL2.Function.ID :=
  simulate_successor_first_nonerror_in_definition_order pathLoop 100 10 0 stepL1 stepL2
    (by rw [evalLoop]; rfl) (by rw [evalLoop]; rfl)

/-- Claim C5: a run emits at most as many steps as the graph has nodes,
never emits two steps for the same node, and when the selected next node
has already been visited in the run, the step at which that selection
happened is the last one — nothing further is emitted. -/
theorem simulate_bounded_no_repeat_stops_on_revisit (path : PacketPath) (b p : Int) :
    (path.Simulate b p).length ≤ path.Functions.length ∧
    ((path.Simulate b p).map (fun st => st.Function.ID)).Nodup ∧
    (∀ (i : Nat) (st : SimulateStep),
      (path.Simulate b p)[i]? = some st →
      nextCurrent (NewFunctionGraph path) st.Function.ID ∈
        ((path.Simulate b p).take (i + 1)).map (fun s => s.Function.ID) →
      i + 1 = (path.Simulate b p).length) := by
  refine ⟨?_, ?_, ?_⟩
  · have hl := simulateLoop_length_le (NewFunctionGraph path)
      (some (NewConntrackEntry ConntrackEstablished)) (NewSKBuffWithPayload b p)
      path.EntryPoint 1 ∅
    have hb : ((NewFunctionGraph path).funIds \ ∅).card ≤ path.Functions.length := by
      rw [Finset.sdiff_empty]
      have h1 := List.toFinset_card_le (path.Functions.map KernelFunction.ID)
      rwa [List.length_map] at h1
    exact le_trans hl hb
  · exact (simulateLoop_ids_fresh_nodup (NewFunctionGraph path)
      (some (NewConntrackEntry ConntrackEstablished)) (NewSKBuffWithPayload b p)
      path.EntryPoint 1 ∅).2
  · intro i st hst hmem
    exact simulateLoop_revisit_terminates (NewFunctionGraph path)
      (some (NewConntrackEntry ConntrackEstablished)) (NewSKBuffWithPayload b p)
      path.EntryPoint 1 ∅ i st hst (Or.inr hmem)

/-- Claim C5 witness: on `pathLoop` (edge back to the visited entry), the
bound, the no-repeat property, and termination right after the step whose
selected successor was already visited. -/
theorem simulate_bounded_no_repeat_stops_on_revisit_witness :
    (pathLoop.Simulate 100 10).length ≤ pathLoop.Functions.length ∧
    ((pathLoop.Simulate 100 10).map (fun st => st.Function.ID)).Nodup ∧
    1 + 1 = (pathLoop.Simulate 100 10).length :=
  ⟨(simulate_bounded_no_repeat_stops_on_revisit pathLoop 100 10).1,
   (simulate_bounded_no_repeat_stops_on_revisit pathLoop 100 10).2.1,
   (simulate_bounded_no_repeat_stops_on_revisit pathLoop 100 10).2.2 1 stepL2
     (by rw [evalLoop]; rfl) (by rw [evalLoop]; decide)⟩

/-- Claim C6: a failed mutation does not abort the run — at a visited node
whose mutation fails (insufficient headroom/tailroom/capacity), the step is
still emitted, its snapshot is exactly the buffer from before the failed
mutation, and traversal continues normally with that unchanged buffer. -/
theorem failed_mutation_still_emits_step_and_continues (g : FunctionGraph)
    (conn : Option ConntrackEntry) (skb : SKBuff) (cur : String) (n : Int)
    (visited : Finset String) (fn : KernelFunction) (mu : SKBMutation)
    (h : ¬ (cur = "" ∨ cur ∈ visited)) (hf : g.GetFunction cur = some fn)
    (hm : fn.SKBMutation = some mu) (hfail : mutationFails mu skb) :
    simulateLoop g conn skb cur n visited =
      { StepNumber := n, Function := fn, SKBuffState := skb, EdgeTaken := none,
        ConntrackState := conn } ::
      simulateLoop g conn skb (nextCurrent g cur) (n + 1) (insert cur visited) := by
  have hnoop : applySKBMutation fn.SKBMutation skb = skb := by
    rw [hm]
    exact applySKBMutation_of_fails mu skb hfail
  rw [simulateLoop_step _ _ _ _ _ _ fn h hf, hnoop, SKBuff.Clone_eq]

/-- Claim C6 witness: the push of 1000 bytes at node `"m"` fails on a buffer
with headroom 90; the step is emitted with the untouched buffer and the
traversal moves on. -/
theorem failed_mutation_still_emits_step_and_continues_witness :
    simulateLoop (NewFunctionGraph pathFail) connEst skb0 "m" 1 ∅ =
      { StepNumber := 1, Function := mkFn "m" (some (NewPushMutation "tcp" 1000)),
        SKBuffState := skb0, EdgeTaken := none, ConntrackState := connEst } ::
      simulateLoop (NewFunctionGraph pathFail) connEst skb0
        (nextCurrent (NewFunctionGraph pathFail) "m") (1 + 1) (insert "m" ∅) :=
  failed_mutation_still_emits_step_and_continues (NewFunctionGraph pathFail) connEst
    skb0 "m" 1 ∅ (mkFn "m" (some (NewPushMutation "tcp" 1000)))
    (NewPushMutation "tcp" 1000) (by decide) (by decide) (by decide) (by decide)

/-- Claim C8: the `i`-th emitted step's buffer snapshot equals the fold of
the mutations of the first `i+1` visited nodes over the initial buffer —
each snapshot is fully determined at emission time, so no later mutation of
the live buffer is observable through an already-emitted snapshot. -/
theorem snapshot_equals_fold_of_prefix_mutations (path : PacketPath) (b p : Int)
    (i : Nat) (st : SimulateStep) (hst : (path.Simulate b p)[i]? = some st) :
    st.SKBuffState =
      (((path.Simulate b p).take (i + 1)).map (fun s => s.Function.SKBMutation)).foldl
        (fun skb m => applySKBMutation m skb) (NewSKBuffWithPayload b p) :=
  simulateLoop_snapshot_fold (NewFunctionGraph path)
    (some (NewConntrackEntry ConntrackEstablished)) (NewSKBuffWithPayload b p)
    path.EntryPoint 1 ∅ i st hst

/-- Claim C8 witness: on `pathPush`, the second step's snapshot equals the
fold of the first two nodes' mutations (one successful push, one `none`)
over the initial buffer. -/
theorem snapshot_equals_fold_of_prefix_mutations_witness :
    stepP2.SKBuffState =
      (((pathPush.Simulate 100 10).take 2).map (fun s => s.Function.SKBMutation)).foldl
        (fun skb m => applySKBMutation m skb) (NewSKBuffWithPayload 100 10) :=
  snapshot_equals_fold_of_prefix_mutations pathPush 100 10 1 stepP2
    (by rw [evalPush]; rfl)

/-- Claim C10: a mutation whose operation is none of `"push"`, `"pull"`,
`"put"` (for example the shipped catalogs' `"alloc"`/`"free"`) falls
through the switch: the buffer is left entirely unchanged at that node and
the step is still emitted. -/
theorem unknown_operation_is_noop_step_still_emitted (g : FunctionGraph)
    (conn : Option ConntrackEntry) (skb : SKBuff) (cur : String) (n : Int)
    (visited : Finset String) (fn : KernelFunction) (mu : SKBMutation)
    (h : ¬ (cur = "" ∨ cur ∈ visited)) (hf : g.GetFunction cur = some fn)
    (hm : fn.SKBMutation = some mu)
    (hop : mu.Operation ≠ "push" ∧ mu.Operation ≠ "pull" ∧ mu.Operation ≠ "put") :
    simulateLoop g conn skb cur n visited =
      { StepNumber := n, Function := fn, SKBuffState := skb, EdgeTaken := none,
        ConntrackState := conn } ::
      simulateLoop g conn skb (nextCurrent g cur) (n + 1) (insert cur visited) := by
  have hnoop : applySKBMutation fn.SKBMutation skb = skb := by
    rw [hm]
    exact applySKBMutation_of_unknown mu skb hop.1 hop.2.1 hop.2.2
  rw [simulateLoop_step _ _ _ _ _ _ fn h hf, hnoop, SKBuff.Clone_eq]

/-- Claim C10 witness: the `"alloc"` mutation of `pathAlloc`'s entry node
leaves the buffer untouched while the step is still emitted. -/
theorem unknown_operation_is_noop_step_still_emitted_witness :
    simulateLoop (NewFunctionGraph pathAlloc) connEst skb0 "al" 1 ∅ =
      { StepNumber := 1,
        Function := mkFn "al" (some (NewAllocMutation 2048
          "Allocate sk_buff with headroom for all protocol headers")),
        SKBuffState := skb0, EdgeTaken := none, ConntrackState := connEst } ::
      simulateLoop (NewFunctionGraph pathAlloc) connEst skb0
        (nextCurrent (NewFunctionGraph pathAlloc) "al") (1 + 1) (insert "al" ∅) :=
  unknown_operation_is_noop_step_still_emitted (NewFunctionGraph pathAlloc) connEst
    skb0 "al" 1 ∅
    (mkFn "al" (some (NewAllocMutation 2048
      "Allocate sk_buff with headroom for all protocol headers")))
    (NewAllocMutation 2048 "Allocate sk_buff with headroom for all protocol headers")
    (by decide) (by decide) (by decide) (by decide)
